import Mathlib

/-!
Verification of the mcp-gateway request pipeline: policy engine, rate
limiter, audit log hash chain, meter, proxy correlation and the gateway
orchestrator, shallowly embedded from the TypeScript sources.
-/

set_option maxRecDepth 100000

namespace MCPGW

/-! ## SHA-256 (model of Node's crypto createHash("sha256") on UTF-8 input)

Words are `Nat`s kept below 2^32 by explicit masking. All recursion is
structural so that concrete digests evaluate inside the kernel. -/

def mask32 : Nat := 4294967295

def rotr32 (n x : Nat) : Nat := ((x >>> n) ||| (x <<< (32 - n))) &&& mask32

def shr32 (n x : Nat) : Nat := x >>> n

def add32 (a b : Nat) : Nat := (a + b) &&& mask32

def bsig0 (x : Nat) : Nat := (rotr32 2 x) ^^^ (rotr32 13 x) ^^^ (rotr32 22 x)

def bsig1 (x : Nat) : Nat := (rotr32 6 x) ^^^ (rotr32 11 x) ^^^ (rotr32 25 x)

def ssig0 (x : Nat) : Nat := (rotr32 7 x) ^^^ (rotr32 18 x) ^^^ (shr32 3 x)

def ssig1 (x : Nat) : Nat := (rotr32 17 x) ^^^ (rotr32 19 x) ^^^ (shr32 10 x)

/-- The 64 round constants of FIPS 180-4 (written in decimal). -/
def sha256K : List Nat :=
  [1116352408, 1899447441, 3049323471, 3921009573,
   961987163, 1508970993, 2453635748, 2870763221,
   3624381080, 310598401, 607225278, 1426881987,
   1925078388, 2162078206, 2614888103, 3248222580,
   3835390401, 4022224774, 264347078, 604807628,
   770255983, 1249150122, 1555081692, 1996064986,
   2554220882, 2821834349, 2952996808, 3210313671,
   3336571891, 3584528711, 113926993, 338241895,
   666307205, 773529912, 1294757372, 1396182291,
   1695183700, 1986661051, 2177026350, 2456956037,
   2730485921, 2820302411, 3259730800, 3345764771,
   3516065817, 3600352804, 4094571909, 275423344,
   430227734, 506948616, 659060556, 883997877,
   958139571, 1322822218, 1537002063, 1747873779,
   1955562222, 2024104815, 2227730452, 2361852424,
   2428436474, 2756734187, 3204031479, 3329325298]

structure Hash8 where
  a : Nat
  b : Nat
  c : Nat
  d : Nat
  e : Nat
  f : Nat
  g : Nat
  h : Nat
deriving DecidableEq, Repr

/-- The initial hash value of FIPS 180-4 (written in decimal). -/
def sha256H0 : Hash8 :=
  ⟨1779033703, 3144134277, 1013904242, 2773480762,
   1359893119, 2600822924, 528734635, 1541459225⟩

/-- One compression round for round constant `k` and schedule word `w`. -/
def sha256Round (st : Hash8) (kw : Nat × Nat) : Hash8 :=
  let t1 := (st.h + bsig1 st.e + ((st.e &&& st.f) ^^^ ((st.e ^^^ mask32) &&& st.g)) + kw.1 + kw.2) &&& mask32
  let t2 := (bsig0 st.a + ((st.a &&& st.b) ^^^ (st.a &&& st.c) ^^^ (st.b &&& st.c))) &&& mask32
  ⟨(t1 + t2) &&& mask32, st.a, st.b, st.c, (st.d + t1) &&& mask32, st.e, st.f, st.g⟩

/-- Extend a 16-word block to the 64-word message schedule. -/
def sha256Schedule (w16 : List Nat) : List Nat :=
  (List.range 48).foldl
    (fun w _ =>
      let i := w.length
      let nw := (w.getD (i - 16) 0 + ssig0 (w.getD (i - 15) 0) + w.getD (i - 7) 0
                 + ssig1 (w.getD (i - 2) 0)) &&& mask32
      w ++ [nw])
    w16

def sha256Compress (st : Hash8) (w16 : List Nat) : Hash8 :=
  let fin := (sha256K.zip (sha256Schedule w16)).foldl sha256Round st
  ⟨add32 st.a fin.a, add32 st.b fin.b, add32 st.c fin.c, add32 st.d fin.d,
   add32 st.e fin.e, add32 st.f fin.f, add32 st.g fin.g, add32 st.h fin.h⟩

/-- Split a list into chunks of `n`, driven by explicit fuel so that the
recursion is structural and kernel-reducible. -/
def chunksFuel (n : Nat) : Nat → List α → List (List α)
  | 0, _ => []
  | _, [] => []
  | fuel + 1, l => l.take n :: chunksFuel n fuel (l.drop n)

def chunks (n : Nat) (l : List α) : List (List α) := chunksFuel n l.length l

def wordOfBytes (bs : List Nat) : Nat := bs.foldl (fun acc b => acc * 256 + b) 0

/-- Big-endian bytes of `v`, `n` bytes wide. -/
def beBytes : Nat → Nat → List Nat
  | 0, _ => []
  | n + 1, v => ((v >>> (8 * n)) &&& 255) :: beBytes n v

/-- SHA-256 padding of a byte string. -/
def sha256Pad (msg : List Nat) : List Nat :=
  let zeros := (64 - ((msg.length + 9) % 64)) % 64
  msg ++ [0x80] ++ List.replicate zeros 0 ++ beBytes 8 (msg.length * 8)

def sha256Bytes (msg : List Nat) : Hash8 :=
  ((chunks 64 (sha256Pad msg)).map (fun blk => (chunks 4 blk).map wordOfBytes)).foldl
    sha256Compress sha256H0

def hexDigitChar (n : Nat) : Char :=
  if n < 10 then Char.ofNat (48 + n) else Char.ofNat (87 + n)

def wordHex (w : Nat) : List Char :=
  [hexDigitChar ((w >>> 28) &&& 15), hexDigitChar ((w >>> 24) &&& 15),
   hexDigitChar ((w >>> 20) &&& 15), hexDigitChar ((w >>> 16) &&& 15),
   hexDigitChar ((w >>> 12) &&& 15), hexDigitChar ((w >>> 8) &&& 15),
   hexDigitChar ((w >>> 4) &&& 15), hexDigitChar (w &&& 15)]

def hash8Hex (st : Hash8) : String :=
  String.mk (wordHex st.a ++ wordHex st.b ++ wordHex st.c ++ wordHex st.d ++
             wordHex st.e ++ wordHex st.f ++ wordHex st.g ++ wordHex st.h)

/-- UTF-8 encoding of a code point (Node's default encoding for
`hash.update(string)`). -/
def utf8Bytes (c : Nat) : List Nat :=
  if c < 0x80 then [c]
  else if c < 0x800 then [0xc0 ||| (c >>> 6), 0x80 ||| (c &&& 63)]
  else if c < 0x10000 then
    [0xe0 ||| (c >>> 12), 0x80 ||| ((c >>> 6) &&& 63), 0x80 ||| (c &&& 63)]
  else
    [0xf0 ||| (c >>> 18), 0x80 ||| ((c >>> 12) &&& 63), 0x80 ||| ((c >>> 6) &&& 63),
     0x80 ||| (c &&& 63)]

def strUtf8 (s : String) : List Nat := s.data.flatMap (fun c => utf8Bytes c.toNat)

/-- `createHash("sha256").update(s).digest("hex")`. -/
def sha256hex (s : String) : String := hash8Hex (sha256Bytes (strUtf8 s))

/-! ## Policy engine (src/policy.ts)

Argument values and condition values are modelled by their JS `String(·)`
coercions, which is all `evaluateCondition` observes of them. -/

inductive RuleAction
  | allow
  | deny
deriving DecidableEq, Repr

inductive CondOp
  | eq
  | neq
  | inOp
  | regex
deriving DecidableEq, Repr

/-- A condition's `value: string | string[]`. -/
inductive CondValue
  | str (s : String)
  | arr (l : List String)
deriving DecidableEq, Repr

structure PolicyCondition where
  param : String
  operator : CondOp
  value : CondValue
deriving DecidableEq, Repr

structure PolicyRule where
  server : Option String
  tool : Option String
  action : RuleAction
  conditions : Option (List PolicyCondition)
deriving DecidableEq, Repr

structure PolicyConfig where
  id : String
  name : String
  roles : List String
  rules : List PolicyRule
deriving DecidableEq, Repr

structure ConsumerContext where
  consumerId : String
  apiKeyId : String
  roles : List String
  rateLimit : Option Nat
deriving DecidableEq, Repr

structure PolicyDecision where
  allowed : Bool
  reason : Option String
  matchedRule : Option PolicyRule
deriving DecidableEq, Repr

/-- JS truthiness of a `string | undefined` field: `undefined` and `""` are
falsy, so a test `rule.server && ...` sees both as "no glob". -/
def jsStr : Option String → Option String
  | some s => if s = "" then none else some s
  | none => none

def globMatch (pattern value : String) : Bool :=
  if pattern = "*" then true
  else if pattern.data.getLast? = some '*' then
    pattern.data.dropLast.isPrefixOf value.data
  else if pattern.data.head? = some '*' then
    pattern.data.tail.isSuffixOf value.data
  else pattern == value

/-- JS `String(value)` of a condition value (an array coerces to its
comma-join). -/
def coerceValue : CondValue → String
  | .str s => s
  | .arr l => String.intercalate "," l

/-- Model of JS `new RegExp(p)` compilation: `none` models a pattern whose
compilation throws (the `catch` path), `some test` the compiled tester. -/
def RegexEngine : Type := String → Option (String → Bool)

/-- A regex engine on which every pattern fails to compile; used to
instantiate evaluations that involve no regex conditions. -/
def noRegex : RegexEngine := fun _ => none

def ArgMap : Type := List (String × String)

def lookupArg : ArgMap → String → Option String
  | [], _ => none
  | kv :: rest, p => if kv.1 = p then some kv.2 else lookupArg rest p

def evaluateCondition (rx : RegexEngine) (c : PolicyCondition) (args : ArgMap) : Bool :=
  match lookupArg args c.param with
  | none => false
  | some actual =>
    match c.operator with
    | .eq => actual == coerceValue c.value
    | .neq => actual != coerceValue c.value
    | .inOp =>
      match c.value with
      | .arr l => l.contains actual
      | .str _ => false
    | .regex =>
      match rx (coerceValue c.value) with
      | some test => test actual
      | none => false

structure ApplicableRule where
  rule : PolicyRule
  policyName : String
deriving DecidableEq, Repr

/-- Rules of role-matching policies whose globs match the call
(`rule.server && !globMatch(...)` / `rule.tool && !globMatch(...)`). -/
def collectApplicable (ctx : ConsumerContext) (serverId toolName : String)
    (policies : List PolicyConfig) : List ApplicableRule :=
  policies.flatMap (fun p =>
    if p.roles.any (fun r => r == "*" || ctx.roles.contains r) then
      p.rules.filterMap (fun r =>
        if (match jsStr r.server with
            | some s => globMatch s serverId
            | none => true)
           && (match jsStr r.tool with
               | some t => globMatch t toolName
               | none => true) then
          some ⟨r, p.name⟩
        else none)
    else [])

/-- `(rule.server && rule.server !== "*" ? 1 : 0) + (rule.tool && rule.tool !== "*" ? 1 : 0)` -/
def ruleSpecificity (r : PolicyRule) : Nat :=
  (match jsStr r.server with
   | some s => if s = "*" then 0 else 1
   | none => 0)
  + (match jsStr r.tool with
     | some t => if t = "*" then 0 else 1
     | none => 0)

/-- Stable insertion for the descending-specificity sort: an element from an
earlier input position goes before every later element of equal or smaller
specificity, which is exactly the result of the stable
`[...rules].sort((a, b) => specB - specA)`. -/
def insertBySpec (x : ApplicableRule) : List ApplicableRule → List ApplicableRule
  | [] => [x]
  | y :: ys =>
    if ruleSpecificity y.rule ≤ ruleSpecificity x.rule then x :: y :: ys
    else y :: insertBySpec x ys

def sortBySpecDesc (l : List ApplicableRule) : List ApplicableRule :=
  l.foldr insertBySpec []

/-- The decision produced by a non-skipped rule. -/
def ruleDecision (policyName : String) (r : PolicyRule) : PolicyDecision :=
  match r.action with
  | .deny =>
    { allowed := false,
      reason := some ("Denied by policy \"" ++ policyName ++ "\": "
                      ++ ((jsStr r.tool).getD "*") ++ " on " ++ ((jsStr r.server).getD "*")),
      matchedRule := some r }
  | .allow => { allowed := true, reason := none, matchedRule := some r }

/-- The first-match walk over the sorted rules. A rule is skipped only when
it carries conditions, an argument map was provided, and not every condition
matches (`if (rule.conditions && args)` — an absent argument map bypasses the
condition check entirely). -/
def walkRules (rx : RegexEngine) (args : Option ArgMap) : List ApplicableRule → PolicyDecision
  | [] => { allowed := false, reason := some "No matching rule", matchedRule := none }
  | ar :: rest =>
    match ar.rule.conditions, args with
    | some cs, some m =>
      if cs.all (fun c => evaluateCondition rx c m) then ruleDecision ar.policyName ar.rule
      else walkRules rx args rest
    | some _, none => ruleDecision ar.policyName ar.rule
    | none, _ => ruleDecision ar.policyName ar.rule

/-- `PolicyEngine.evaluate(ctx, serverId, toolName, args?)`. -/
def PolicyEngine.evaluate (rx : RegexEngine) (policies : List PolicyConfig)
    (ctx : ConsumerContext) (serverId toolName : String) (args : Option ArgMap) :
    PolicyDecision :=
  let applicable := collectApplicable ctx serverId toolName policies
  if applicable.isEmpty then
    { allowed := false, reason := some "No matching policy rules (default deny)",
      matchedRule := none }
  else
    walkRules rx args (sortBySpecDesc applicable)

/-! Concrete policy fixtures mirroring the repository's own policy tests
(`test/policy.test.ts`). -/

def testPolicies : List PolicyConfig :=
  [⟨"reader", "Reader", ["reader"],
    [⟨none, some "get_*", .allow, none⟩,
     ⟨none, some "search_*", .allow, none⟩,
     ⟨none, some "delete_*", .deny, none⟩,
     ⟨none, some "*", .deny, none⟩]⟩,
   ⟨"admin", "Admin", ["admin"],
    [⟨none, none, .allow, none⟩]⟩,
   ⟨"restricted", "Restricted server", ["reader"],
    [⟨some "mcp-stripe", some "*", .deny, none⟩]⟩]

def readerCtx : ConsumerContext := ⟨"user1", "k1", ["reader"], none⟩

def adminCtx : ConsumerContext := ⟨"admin1", "k2", ["admin"], none⟩

def noRoleCtx : ConsumerContext := ⟨"nobody", "k3", [], none⟩

/-! ## Audit log (src/audit.ts)

The SQLite table is modelled as the list of rows in `rowid` (insertion)
order; `db = none` models "no database open". `randomUUID()` and
`new Date().toISOString()` are environment inputs, passed explicitly to
`log`. -/

structure AuditEntry where
  id : String
  timestamp : String
  consumerId : String
  apiKeyId : String
  serverId : String
  tool : String
  args : String
  response : String
  latencyMs : Nat
  status : String
  error : Option String
  prevHash : Option String
  hash : String
deriving DecidableEq, Repr

/-- `computeHash(entry)`: SHA-256 hex of
`id|timestamp|consumerId|serverId|tool|status|prevHash`, where
`entry.prevHash || ""` maps both `undefined` and `""` to `""`
(`Option.getD ""` does the same). -/
def computeHash (e : AuditEntry) : String :=
  sha256hex (e.id ++ "|" ++ e.timestamp ++ "|" ++ e.consumerId ++ "|" ++ e.serverId
             ++ "|" ++ e.tool ++ "|" ++ e.status ++ "|" ++ (e.prevHash.getD ""))

structure AuditLogState where
  db : Option (List AuditEntry)
  lastHash : String
  hashChain : Bool
deriving DecidableEq, Repr

/-- The constructor's state for a fresh SQLite store: empty table and
`lastHash = "genesis"` (`loadLastHash` finds no row). -/
def AuditLogState.openFresh (hashChain : Bool) : AuditLogState :=
  ⟨some [], "genesis", hashChain⟩

/-- The argument of `log()` (everything but the generated `id`,
`timestamp`, `prevHash`, `hash`). -/
structure LogPartial where
  consumerId : String
  apiKeyId : String
  serverId : String
  tool : String
  args : String
  response : String
  latencyMs : Nat
  status : String
  error : Option String
deriving DecidableEq, Repr

/-- JS `s.slice(0, n)`. -/
def strTake (n : Nat) (s : String) : String := String.mk (s.data.take n)

/-- `AuditLog.log(partial)`: assign id and timestamp, link and hash when the
chain is enabled, persist the row with the response truncated to 10,000
units, update `lastHash`. Returns the new state and the in-memory entry. -/
def AuditLogState.log (st : AuditLogState) (newId newTimestamp : String)
    (p : LogPartial) : AuditLogState × AuditEntry :=
  let e0 : AuditEntry :=
    { id := newId, timestamp := newTimestamp, consumerId := p.consumerId,
      apiKeyId := p.apiKeyId, serverId := p.serverId, tool := p.tool,
      args := p.args, response := p.response, latencyMs := p.latencyMs,
      status := p.status, error := p.error, prevHash := none, hash := "" }
  let entry :=
    if st.hashChain then
      let e1 := { e0 with prevHash := some st.lastHash }
      { e1 with hash := computeHash e1 }
    else
      { e0 with hash := computeHash e0 }
  let newLast := if st.hashChain then entry.hash else st.lastHash
  let db' := st.db.map (fun rows => rows ++ [{ entry with response := strTake 10000 entry.response }])
  (⟨db', newLast, st.hashChain⟩, entry)

/-- The row `log` persists on a chain-enabled state with running hash
`lh` (definitionally equal to the row built inside `AuditLogState.log`). -/
def logRow (lh nid nts : String) (p : LogPartial) : AuditEntry :=
  let e1 : AuditEntry :=
    { id := nid, timestamp := nts, consumerId := p.consumerId, apiKeyId := p.apiKeyId,
      serverId := p.serverId, tool := p.tool, args := p.args, response := p.response,
      latencyMs := p.latencyMs, status := p.status, error := p.error,
      prevHash := some lh, hash := "" }
  { e1 with hash := computeHash e1, response := strTake 10000 p.response }

structure VerifyResult where
  valid : Bool
  brokenAt : Option String
deriving DecidableEq, Repr

/-- The row walk of `verify()`: each row's `prevHash` must equal the
running hash (initially `"genesis"`) and its stored `hash` must recompute. -/
def verifyRows (prev : String) : List AuditEntry → VerifyResult
  | [] => ⟨true, none⟩
  | e :: rest =>
    if e.prevHash ≠ some prev then ⟨false, some e.id⟩
    else if e.hash ≠ computeHash e then ⟨false, some e.id⟩
    else verifyRows e.hash rest

/-- `AuditLog.verify()`: immediately valid when no database is open or the
chain is disabled. -/
def AuditLogState.verify (st : AuditLogState) : VerifyResult :=
  match st.db, st.hashChain with
  | none, _ => ⟨true, none⟩
  | some _, false => ⟨true, none⟩
  | some rows, true => verifyRows "genesis" rows

/-- One `log()` invocation together with its environment-generated id and
timestamp. -/
structure LogCall where
  newId : String
  newTimestamp : String
  input : LogPartial
deriving DecidableEq, Repr

def runLog (st : AuditLogState) (calls : List LogCall) : AuditLogState :=
  calls.foldl (fun s c => (s.log c.newId c.newTimestamp c.input).1) st

/-- The spec's canonical hash composition (§3): SHA-256 hex of the entry's
`id`, `timestamp`, `consumerId`, `serverId`, `tool`, `status` and the given
prev-hash, joined with `|`. -/
def claimCompose (e : AuditEntry) (prevHash : String) : String :=
  sha256hex (e.id ++ "|" ++ e.timestamp ++ "|" ++ e.consumerId ++ "|" ++ e.serverId
             ++ "|" ++ e.tool ++ "|" ++ e.status ++ "|" ++ prevHash)

/-- The chain invariant of claim C4 over a row list: the first row's
`prevHash` is the running hash (initially `"genesis"`), every row's `hash`
is the canonical composition over its `prevHash`, and the running hash
advances to the row's `hash`. -/
def chainFrom (prev : String) : List AuditEntry → Prop
  | [] => True
  | e :: rest => e.prevHash = some prev ∧ e.hash = claimCompose e prev ∧ chainFrom e.hash rest

/-- The hash at the end of a row list, starting from `prev`. -/
def chainTip (prev : String) : List AuditEntry → String
  | [] => prev
  | e :: rest => chainTip e.hash rest

/-! ## Association lists (model of JS `Map` / plain-object keying)

`Map.set` replaces an existing key in place (keeping its insertion
position) and appends a new key, which is exactly `assocSet`. -/

def assocGet {α : Type} : List (String × α) → String → Option α
  | [], _ => none
  | kv :: rest, k => if kv.1 = k then some kv.2 else assocGet rest k

def assocSet {α : Type} : List (String × α) → String → α → List (String × α)
  | [], k, v => [(k, v)]
  | (k', v') :: rest, k, v =>
    if k' = k then (k, v) :: rest else (k', v') :: assocSet rest k v

/-! ## Rate limiter (src/ratelimit.ts)

`Date.now()` is an environment input, passed explicitly to `check`. -/

structure RateWindow where
  count : Nat
  resetAt : Nat
deriving DecidableEq, Repr

/-- The burst multiplier is a nonnegative JS number; it is modelled as a
fraction `(numerator, denominator)` of naturals (denominator positive), the
default `2` being `(2, 1)`. -/
structure RateLimiterState where
  defaultPerMinute : Nat
  burstMultiplier : Nat × Nat
  windows : List (String × RateWindow)
deriving DecidableEq, Repr

structure RateCheckResult where
  allowed : Bool
  remaining : Nat
  resetAt : Nat
deriving DecidableEq, Repr

/-- `Math.ceil(a / b)` on nonnegative integers with `b > 0`. -/
def natCeilDiv (a b : Nat) : Nat := (a + b - 1) / b

/-- `RateLimiter.check(key, limitOverride?)`. `limitOverride || default`
treats an override of `0` as absent (JS falsiness); the effective cap is
`Math.ceil(limit * burstMultiplier)`. A missing or expired window is
recreated with count `0` and `resetAt = now + 60_000`. -/
def RateLimiter.check (st : RateLimiterState) (now : Nat) (key : String)
    (limitOverride : Option Nat) : RateLimiterState × RateCheckResult :=
  let limit := match limitOverride with
    | some o => if o = 0 then st.defaultPerMinute else o
    | none => st.defaultPerMinute
  let w := match assocGet st.windows key with
    | some w => if w.resetAt ≤ now then ⟨0, now + 60000⟩ else w
    | none => (⟨0, now + 60000⟩ : RateWindow)
  let maxBurst := natCeilDiv (limit * st.burstMultiplier.1) st.burstMultiplier.2
  if maxBurst ≤ w.count then
    ({ st with windows := assocSet st.windows key w }, ⟨false, 0, w.resetAt⟩)
  else
    let w' : RateWindow := ⟨w.count + 1, w.resetAt⟩
    ({ st with windows := assocSet st.windows key w' },
     ⟨true, maxBurst - w'.count, w.resetAt⟩)

/-- Run a list of `(now, key, limitOverride)` checks, collecting results. -/
def runChecks (st : RateLimiterState) (calls : List (Nat × String × Option Nat)) :
    RateLimiterState × List RateCheckResult :=
  match calls with
  | [] => (st, [])
  | c :: cs =>
    let (st', r) := RateLimiter.check st c.1 c.2.1 c.2.2
    let (st'', rs) := runChecks st' cs
    (st'', r :: rs)

/-! ## Tool-protocol proxy correlation (src/proxy.ts)

The correlation table is modelled by the list of pending request ids; the
`resolve`/`reject` closures are represented by the emitted completion.
`handleMessage` completes an entry only if the id is still pending (a late
response is ignored); the timer callback removes the entry and rejects with
a timeout. A timeout event for an id that is no longer pending cannot fire
in the source — `clearTimeout` cancels the timer when the entry completes —
so it is a no-op here. -/

inductive ProxyEvent
  | response (id : Nat) (isError : Bool)
  | timeout (id : Nat)
deriving DecidableEq, Repr

inductive Completion
  | resolved (id : Nat)
  | rejectedError (id : Nat)
  | rejectedTimeout (id : Nat)
deriving DecidableEq, Repr

def Completion.cid : Completion → Nat
  | .resolved i => i
  | .rejectedError i => i
  | .rejectedTimeout i => i

def proxyStep : List Nat → ProxyEvent → List Nat × Option Completion
  | s, .response i isErr =>
    if i ∈ s then (s.erase i, some (if isErr then .rejectedError i else .resolved i))
    else (s, none)
  | s, .timeout i =>
    if i ∈ s then (s.erase i, some (.rejectedTimeout i)) else (s, none)

def proxyRun : List Nat → List ProxyEvent → List Nat × List Completion
  | s, [] => (s, [])
  | s, e :: es =>
    let (s', c) := proxyStep s e
    let (s'', cs) := proxyRun s' es
    (s'', c.toList ++ cs)

def completionsFor (i : Nat) (cs : List Completion) : List Completion :=
  cs.filter (fun c => c.cid == i)

/-! ## Meter (src/meter.ts)

The current period key (`getPeriod()`, derived from the clock) is an
environment input, passed explicitly to `record`. -/

structure MeterBucket where
  calls : Nat
  errors : Nat
  totalLatencyMs : Nat
deriving DecidableEq, Repr

structure MeterEntry where
  consumerId : String
  serverId : String
  tool : String
  calls : Nat
  errors : Nat
  totalLatencyMs : Nat
  periodStart : String
  periodEnd : String
deriving DecidableEq, Repr

structure MeterState where
  enabled : Bool
  buckets : List (String × MeterBucket)
  currentPeriod : String
  history : List MeterEntry
deriving DecidableEq, Repr

/-- JS `key.split("|")`. -/
def splitPipeGo : List Char → List Char → List String
  | [], acc => [String.mk acc.reverse]
  | c :: cs, acc =>
    if c = '|' then String.mk acc.reverse :: splitPipeGo cs []
    else splitPipeGo cs (c :: acc)

def splitPipe (s : String) : List String := splitPipeGo s.data []

/-- The rollup row pushed by `flush()` for one bucket. -/
def meterEntryOfBucket (kb : String × MeterBucket) : MeterEntry :=
  let parts := splitPipe kb.1
  { consumerId := parts.getD 0 "", serverId := parts.getD 1 "", tool := parts.getD 2 "",
    calls := kb.2.calls, errors := kb.2.errors, totalLatencyMs := kb.2.totalLatencyMs,
    periodStart := parts.getD 3 "" ++ ":00:00.000Z",
    periodEnd := parts.getD 3 "" ++ ":59:59.999Z" }

def MeterState.flush (st : MeterState) : MeterState :=
  { st with history := st.history ++ st.buckets.map meterEntryOfBucket, buckets := [] }

/-- The get-or-create-then-increment step of `record` on one bucket: a
missing bucket starts at zeroes, then `calls++`, conditionally `errors++`,
and the latency is accumulated. -/
def bumpBucket (old : Option MeterBucket) (latencyMs : Nat) (isError : Bool) : MeterBucket :=
  let b := old.getD ⟨0, 0, 0⟩
  ⟨b.calls + 1, if isError then b.errors + 1 else b.errors, b.totalLatencyMs + latencyMs⟩

/-- `Meter.record(consumerId, serverId, tool, latencyMs, isError)` at the
given current period key. -/
def MeterState.record (st : MeterState) (period : String)
    (consumerId serverId tool : String) (latencyMs : Nat) (isError : Bool) : MeterState :=
  if st.enabled = false then st
  else
    let st := if period ≠ st.currentPeriod then { st.flush with currentPeriod := period } else st
    let key := consumerId ++ "|" ++ serverId ++ "|" ++ tool ++ "|" ++ period
    { st with buckets := assocSet st.buckets key (bumpBucket (assocGet st.buckets key) latencyMs isError) }

/-- JS string `<=` (lexicographic on code units). -/
def jsStrLeGo : List Char → List Char → Bool
  | [], _ => true
  | _ :: _, [] => false
  | a :: as, b :: bs =>
    if a.toNat < b.toNat then true
    else if b.toNat < a.toNat then false
    else jsStrLeGo as bs

def jsStrLe (a b : String) : Bool := jsStrLeGo a.data b.data

structure UsageOpts where
  consumerId : Option String
  serverId : Option String
  fromTs : Option String
  toTs : Option String
deriving DecidableEq, Repr

/-- `Meter.getUsage(opts?)`: flushes, then filters the rollup history.
`if (opts?.x)` checks are JS-truthy, hence `jsStr`. -/
def MeterState.getUsage (st : MeterState) (opts : UsageOpts) :
    MeterState × List MeterEntry :=
  let st' := st.flush
  let e0 := st'.history
  let e1 := match jsStr opts.consumerId with
    | some c => e0.filter (fun e => e.consumerId == c)
    | none => e0
  let e2 := match jsStr opts.serverId with
    | some sv => e1.filter (fun e => e.serverId == sv)
    | none => e1
  let e3 := match jsStr opts.fromTs with
    | some f => e2.filter (fun e => jsStrLe f e.periodStart)
    | none => e2
  let e4 := match jsStr opts.toTs with
    | some t => e3.filter (fun e => jsStrLe e.periodEnd t)
    | none => e3
  (st', e4)

structure MeterSummary where
  totalCalls : Nat
  totalErrors : Nat
  avgLatencyMs : Nat
  byServer : List (String × Nat)
  byTool : List (String × Nat)
deriving DecidableEq, Repr

/-- JS `Math.round(num / den)` for nonnegative integer operands: round half
toward positive infinity, i.e. `⌊(2 num + den) / (2 den)⌋`. -/
def jsRound (num den : Nat) : Nat := (2 * num + den) / (2 * den)

def bumpCount (l : List (String × Nat)) (k : String) (n : Nat) : List (String × Nat) :=
  assocSet l k ((assocGet l k).getD 0 + n)

structure SummaryAcc where
  totalCalls : Nat
  totalErrors : Nat
  totalLatency : Nat
  byServer : List (String × Nat)
  byTool : List (String × Nat)
deriving DecidableEq, Repr

/-- One iteration of `getSummary`'s accumulation loop. -/
def summaryStep (acc : SummaryAcc) (e : MeterEntry) : SummaryAcc :=
  ⟨acc.totalCalls + e.calls, acc.totalErrors + e.errors,
   acc.totalLatency + e.totalLatencyMs,
   bumpCount acc.byServer e.serverId e.calls, bumpCount acc.byTool e.tool e.calls⟩

/-- `Meter.getSummary(consumerId?)`. -/
def MeterState.getSummary (st : MeterState) (consumerId : Option String) :
    MeterState × MeterSummary :=
  let (st', entries) := st.getUsage ⟨consumerId, none, none, none⟩
  let acc := entries.foldl summaryStep ⟨0, 0, 0, [], []⟩
  (st', ⟨acc.totalCalls, acc.totalErrors,
         if 0 < acc.totalCalls then jsRound acc.totalLatency acc.totalCalls else 0,
         acc.byServer, acc.byTool⟩)

/-- Run a list of `record` calls. -/
structure RecordCall where
  period : String
  consumerId : String
  serverId : String
  tool : String
  latencyMs : Nat
  isError : Bool
deriving DecidableEq, Repr

def runRecords (st : MeterState) (calls : List RecordCall) : MeterState :=
  calls.foldl
    (fun s c => s.record c.period c.consumerId c.serverId c.tool c.latencyMs c.isError) st

/-- A freshly constructed enabled meter at the given current period. -/
def freshMeter (period : String) : MeterState := ⟨true, [], period, []⟩

/-! Field totals over the meter's state, used to state the aggregation
theorems. -/

def histCalls (h : List MeterEntry) : Nat := (h.map (fun e => e.calls)).sum

def histErrors (h : List MeterEntry) : Nat := (h.map (fun e => e.errors)).sum

def histLat (h : List MeterEntry) : Nat := (h.map (fun e => e.totalLatencyMs)).sum

def bucketsCalls (l : List (String × MeterBucket)) : Nat := (l.map (fun kv => kv.2.calls)).sum

def bucketsErrors (l : List (String × MeterBucket)) : Nat := (l.map (fun kv => kv.2.errors)).sum

def bucketsLat (l : List (String × MeterBucket)) : Nat :=
  (l.map (fun kv => kv.2.totalLatencyMs)).sum

def mCalls (m : MeterState) : Nat := histCalls m.history + bucketsCalls m.buckets

def mErrors (m : MeterState) : Nat := histErrors m.history + bucketsErrors m.buckets

def mLat (m : MeterState) : Nat := histLat m.history + bucketsLat m.buckets

/-! ## Gateway orchestrator (src/gateway.ts, `Gateway.callTool`)

The registry is modelled by `(server id, discovered tool names)` pairs in
registration order (`findServerForTool` returns the first hit); `proxies`
holds the ids with a live proxy. The environment inputs of one call —
generated audit id and timestamp, the clock, the meter period key, the
measured latency and the backend's reply — are passed explicitly. The
third component of the result collects the audit entries written during the
call. -/

structure CallResult where
  result : Option String
  error : Option String
  denied : Bool
  rateLimited : Bool
deriving DecidableEq, Repr

structure GatewayState where
  policies : List PolicyConfig
  rateLimiter : RateLimiterState
  audit : AuditLogState
  meter : MeterState
  registryServers : List (String × List String)
  proxies : List String
deriving Repr

structure CallEnv where
  newId : String
  newTimestamp : String
  now : Nat
  period : String
  latency : Nat
  backendResult : Except String String
deriving Repr

/-- Model of `JSON.stringify(args)`; its rendering is opaque to every claim
(it is only stored in audit rows), argument values appearing in their
coerced form. -/
def serializeArgs (args : ArgMap) : String :=
  "\x7b" ++ String.intercalate ","
    (args.map (fun kv => "\"" ++ kv.1 ++ "\":\"" ++ kv.2 ++ "\"")) ++ "\x7d"

def Gateway.callTool (st : GatewayState) (rx : RegexEngine) (env : CallEnv)
    (ctx : ConsumerContext) (toolName : String) (args : ArgMap) :
    GatewayState × CallResult × List AuditEntry :=
  match st.registryServers.find? (fun s => s.2.contains toolName) with
  | none =>
    let (audit', e) := st.audit.log env.newId env.newTimestamp
      ⟨ctx.consumerId, ctx.apiKeyId, "unknown", toolName, serializeArgs args, "", 0,
       "error", some "Tool not found"⟩
    ({ st with audit := audit' },
     ⟨none, some ("Tool \"" ++ toolName ++ "\" not found in any registered server"),
      false, false⟩,
     [e])
  | some server =>
    let serverId := server.1
    let decision := PolicyEngine.evaluate rx st.policies ctx serverId toolName (some args)
    if decision.allowed = false then
      let (audit', e) := st.audit.log env.newId env.newTimestamp
        ⟨ctx.consumerId, ctx.apiKeyId, serverId, toolName, serializeArgs args, "", 0,
         "denied", decision.reason⟩
      ({ st with audit := audit' }, ⟨none, decision.reason, true, false⟩, [e])
    else
      let rateKey := ctx.consumerId ++ ":" ++ serverId
      let (rl', rateResult) := RateLimiter.check st.rateLimiter env.now rateKey ctx.rateLimit
      let st1 := { st with rateLimiter := rl' }
      if rateResult.allowed = false then
        let (audit', e) := st1.audit.log env.newId env.newTimestamp
          ⟨ctx.consumerId, ctx.apiKeyId, serverId, toolName, serializeArgs args, "", 0,
           "rate-limited", none⟩
        ({ st1 with audit := audit' },
         ⟨none, some "Rate limit exceeded", false, true⟩, [e])
      else if st1.proxies.contains serverId = false then
        (st1, ⟨none, some ("Server \"" ++ serverId ++ "\" is not running"), false, false⟩, [])
      else
        match env.backendResult with
        | .ok result =>
          let (audit', e) := st1.audit.log env.newId env.newTimestamp
            ⟨ctx.consumerId, ctx.apiKeyId, serverId, toolName, serializeArgs args,
             strTake 10000 result, env.latency, "success", none⟩
          let meter' := st1.meter.record env.period ctx.consumerId serverId toolName
            env.latency false
          ({ st1 with audit := audit', meter := meter' },
           ⟨some result, none, false, false⟩, [e])
        | .error msg =>
          let (audit', e) := st1.audit.log env.newId env.newTimestamp
            ⟨ctx.consumerId, ctx.apiKeyId, serverId, toolName, serializeArgs args, "",
             env.latency, "error", some msg⟩
          let meter' := st1.meter.record env.period ctx.consumerId serverId toolName
            env.latency true
          ({ st1 with audit := audit', meter := meter' },
           ⟨none, some msg, false, false⟩, [e])

/-! ## Concrete fixtures used by the claim theorems -/

def allowAllPolicies : List PolicyConfig :=
  [⟨"default", "Allow all", ["*"], [⟨none, none, .allow, none⟩]⟩]

def denyAllPolicies : List PolicyConfig :=
  [⟨"deny", "Deny all", ["*"], [⟨none, none, .deny, none⟩]⟩]

/-- A gateway with one backend `s1` exposing tool `t`, a live proxy for it,
an allow-all policy, fresh rate limiter (60/min, burst 2), fresh chained
audit store and fresh meter. -/
def gwBase : GatewayState :=
  { policies := allowAllPolicies,
    rateLimiter := ⟨60, (2, 1), []⟩,
    audit := AuditLogState.openFresh true,
    meter := freshMeter "2024-01-01T00",
    registryServers := [("s1", ["t"])],
    proxies := ["s1"] }

def gwNoProxy : GatewayState := { gwBase with proxies := [] }

def gwDeny : GatewayState := { gwBase with policies := denyAllPolicies }

/-- `gwBase` whose window for key `c:s1` is already at the cap
`ceil(60 * 2) = 120` inside the current window. -/
def gwRateCapped : GatewayState :=
  { gwBase with rateLimiter := ⟨60, (2, 1), [("c:s1", ⟨120, 60000⟩)]⟩ }

def envOk : CallEnv :=
  ⟨"id-1", "2024-01-01T00:00:00.000Z", 0, "2024-01-01T00", 5, .ok "\"ok\""⟩

def envErr : CallEnv := { envOk with backendResult := .error "boom" }

def ctxPlain : ConsumerContext := ⟨"c", "k", [], none⟩

/-- A `log()` input for the chain fixtures. -/
def logPartialFix (tool resp : String) : LogPartial :=
  ⟨"alice", "key-1", "s1", tool, "\x7b\x7d", resp, 5, "success", none⟩

def abcCalls : List LogCall :=
  [⟨"A", "2024-01-01T00:00:00.000Z", logPartialFix "t1" "r1"⟩,
   ⟨"B", "2024-01-01T00:00:01.000Z", logPartialFix "t2" "r2"⟩,
   ⟨"C", "2024-01-01T00:00:02.000Z", logPartialFix "t3" "r3"⟩]

/-- The audit log after logging entries A, B, C with the chain enabled. -/
def abcState : AuditLogState := runLog (AuditLogState.openFresh true) abcCalls

def abcRows : List AuditEntry := abcState.db.getD []

def dummyEntry : AuditEntry := ⟨"", "", "", "", "", "", "", "", 0, "", none, none, ""⟩

/-- `abcRows` with entry C's `response` column overwritten in place. -/
def abcRespTampered : List AuditEntry :=
  abcRows.take 2 ++ [{ abcRows.getD 2 dummyEntry with response := "tampered" }]

/-- `abcRows` with entry C's `status` column (hash-covered) overwritten. -/
def abcStatusTampered : List AuditEntry :=
  abcRows.take 2 ++ [{ abcRows.getD 2 dummyEntry with status := "denied" }]

/-- The two reader policies of the spec's "server restriction wins"
scenario. -/
def c5Policies : List PolicyConfig :=
  [⟨"reader-policy", "Reader", ["reader"],
    [⟨none, some "get_*", .allow, none⟩, ⟨none, some "*", .deny, none⟩]⟩,
   ⟨"pay-restricted", "Pay restricted", ["reader"],
    [⟨some "pay", some "*", .deny, none⟩]⟩]

def c5Reader : ConsumerContext := ⟨"u", "k", ["reader"], none⟩

/-- One policy whose single allow rule carries a condition on parameter
`x`. -/
def c6Policies : List PolicyConfig :=
  [⟨"cond", "Conditional", ["r"],
    [⟨none, none, .allow, some [⟨"x", .eq, .str "1"⟩]⟩]⟩]

def c6Ctx : ConsumerContext := ⟨"u", "k", ["r"], none⟩

/-- Ten checks on `k`, one on `k2`, an eleventh on `k`, all inside one
60-second window. -/
def c7Calls : List (Nat × String × Option Nat) :=
  [(0, "k", none), (1000, "k", none), (2000, "k", none), (3000, "k", none),
   (4000, "k", none), (5000, "k", none), (6000, "k", none), (7000, "k", none),
   (8000, "k", none), (9000, "k", none), (9500, "k2", none), (10000, "k", none)]

/-- A meter that recorded two calls with latencies 2 and 3 in one period. -/
def c9Meter : MeterState :=
  runRecords (freshMeter "2024-01-01T00")
    [⟨"2024-01-01T00", "c", "s", "t", 2, false⟩,
     ⟨"2024-01-01T00", "c", "s", "t", 3, false⟩]

end MCPGW

namespace MCPGW

/-! # Theorems -/

/-- FIPS 180-4 test vector for the SHA-256 model. -/
example : sha256hex "abc" =
    "ba7816bf8f01cfea414140de5dae2223b00361a396177a9cb410ff61f20015ad" := by decide

/-! Sanity checks mirroring the repository's own policy tests
(`test/policy.test.ts`). -/

example :
    (PolicyEngine.evaluate noRegex testPolicies readerCtx "mcp-fred" "get_series" none).allowed
      = true := by decide

example :
    (PolicyEngine.evaluate noRegex testPolicies readerCtx "mcp-fred" "delete_record" none).allowed
      = false := by decide

example :
    (PolicyEngine.evaluate noRegex testPolicies readerCtx "mcp-stripe" "create_customer" none).allowed
      = false := by decide

example :
    (PolicyEngine.evaluate noRegex testPolicies adminCtx "mcp-stripe" "delete_customer" none).allowed
      = true := by decide

example :
    (PolicyEngine.evaluate noRegex testPolicies noRoleCtx "mcp-fred" "get_series" none).allowed
      = false := by decide

/-! ### Audit hash chain -/

theorem chainTip_append (prev : String) (rows : List AuditEntry) (e : AuditEntry) :
    chainTip prev (rows ++ [e]) = e.hash := by
  induction rows generalizing prev with
  | nil => rfl
  | cons r rs ih => exact ih r.hash

theorem chainFrom_append : ∀ (rows : List AuditEntry) (prev : String) (e : AuditEntry),
    chainFrom prev rows → e.prevHash = some (chainTip prev rows) →
    e.hash = claimCompose e (chainTip prev rows) → chainFrom prev (rows ++ [e])
  | [], _, _, _, hp, hh => ⟨hp, hh, trivial⟩
  | r :: rs, _, e, hc, hp, hh =>
    ⟨hc.1, hc.2.1, chainFrom_append rs r.hash e hc.2.2 hp hh⟩

/-- `log()` with the chain enabled preserves the chain invariant of the
persisted rows and keeps `lastHash` at the chain tip. -/
theorem runLog_chain (calls : List LogCall) :
    ∀ (rows : List AuditEntry) (st : AuditLogState),
      st.db = some rows → st.hashChain = true →
      chainFrom "genesis" rows → st.lastHash = chainTip "genesis" rows →
      ∃ rows', (runLog st calls).db = some rows' ∧ chainFrom "genesis" rows' := by
  induction calls with
  | nil =>
    intro rows st h1 _ h3 _
    exact ⟨rows, h1, h3⟩
  | cons c cs ih =>
    intro rows st h1 h2 h3 h4
    obtain ⟨db, lh, hc⟩ := st
    dsimp only at h1 h2 h4
    subst h1 h2 h4
    exact ih (rows ++ [logRow (chainTip "genesis" rows) c.newId c.newTimestamp c.input])
      ⟨some (rows ++ [logRow (chainTip "genesis" rows) c.newId c.newTimestamp c.input]),
       (logRow (chainTip "genesis" rows) c.newId c.newTimestamp c.input).hash, true⟩
      rfl rfl (chainFrom_append _ _ _ h3 rfl rfl) (chainTip_append _ _ _).symm

/-- C4: with the hash chain enabled, after any sequence of `log()` calls on
one freshly opened audit-log instance, the persisted rows satisfy: the first
row's `prevHash` is the literal `"genesis"`, every subsequent row's
`prevHash` equals the immediately preceding row's `hash`, and every row's
`hash` equals the SHA-256 hex digest of
`id|timestamp|consumerId|serverId|tool|status|prevHash` joined with `|`
(exactly that composition). -/
theorem C4_chain_invariants (calls : List LogCall) :
    chainFrom "genesis" ((runLog (AuditLogState.openFresh true) calls).db.getD []) := by
  obtain ⟨rows, hdb, hcf⟩ :=
    runLog_chain calls [] (AuditLogState.openFresh true) rfl rfl trivial rfl
  rw [hdb]
  exact hcf

/-- C2 counterexample: for the verified chain-enabled log A, B, C,
overwriting C's `response` column leaves `verify()` reporting
`{valid := true}` — not `{valid := false, brokenAt := C.id}` as claimed —
because `computeHash` does not cover the `response` column, so C's
recomputed hash still equals the stored one. -/
theorem C2_counterexample :
    AuditLogState.verify { abcState with db := some abcRespTampered } = ⟨true, none⟩ := by
  decide

/-- The row walk breaks exactly at the first entry failing one of its two
checks: whenever the rows before `e` all verify and `e` fails the link
check or the recompute check, the walk over the whole list reports
`{valid := false, brokenAt := e.id}`, whatever rows follow. -/
theorem verifyRows_append_break :
    ∀ (l₁ : List AuditEntry) (p : String) (e : AuditEntry) (l₂ : List AuditEntry),
      verifyRows p l₁ = ⟨true, none⟩ →
      e.prevHash ≠ some (chainTip p l₁) ∨ e.hash ≠ computeHash e →
      verifyRows p (l₁ ++ e :: l₂) = ⟨false, some e.id⟩
  | [], p, e, l₂ => by
    intro _ hbad
    by_cases h1 : e.prevHash = some p
    · rcases hbad with hb | hb
      · exact absurd h1 hb
      · simp [verifyRows, h1, hb]
    · simp [verifyRows, h1]
  | r :: l₁, p, e, l₂ => by
    intro hok hbad
    have hr1 : r.prevHash = some p := by
      by_contra hc
      simp [verifyRows, hc] at hok
    have hr2 : r.hash = computeHash r := by
      by_contra hc
      simp [verifyRows, hr1, hc] at hok
    have hok' : verifyRows r.hash l₁ = ⟨true, none⟩ := by
      simpa [verifyRows, hr1, hr2] using hok
    have hrec := verifyRows_append_break l₁ r.hash e l₂ hok' hbad
    rw [hr2] at hrec
    simp [verifyRows, hr1, hr2, hrec]

/-- C2 (amended): the untampered A, B, C log verifies as valid; any
modification of a persisted entry that falsifies one of `verify()`'s two
per-row checks breaks verification exactly at that entry, whatever rows
surround it — overwriting an entry's `prevHash` or its stored `hash` with
any different value always does so, and overwriting a hash-covered content
field does so whenever the recomputed digest differs from the stored hash,
as concretely happens when C's `status` is overwritten
(`{valid := false, brokenAt := C.id}`); but modifying C's `response` — a
column outside the canonical hash composition — falsifies neither check,
so `verify()` still returns `{valid := true}`. -/
theorem C2_tamper_detection :
    (AuditLogState.verify abcState = ⟨true, none⟩)
    ∧ (∀ (p : String) (l₁ : List AuditEntry) (e : AuditEntry) (l₂ : List AuditEntry),
        verifyRows p l₁ = ⟨true, none⟩ →
        e.prevHash ≠ some (chainTip p l₁) ∨ e.hash ≠ computeHash e →
        verifyRows p (l₁ ++ e :: l₂) = ⟨false, some e.id⟩)
    ∧ (∀ (p : String) (l₁ : List AuditEntry) (e : AuditEntry) (l₂ : List AuditEntry)
        (v : Option String),
        verifyRows p l₁ = ⟨true, none⟩ → e.prevHash = some (chainTip p l₁) →
        v ≠ e.prevHash →
        verifyRows p (l₁ ++ { e with prevHash := v } :: l₂) = ⟨false, some e.id⟩)
    ∧ (∀ (p : String) (l₁ : List AuditEntry) (e : AuditEntry) (l₂ : List AuditEntry)
        (v : String),
        verifyRows p l₁ = ⟨true, none⟩ → e.hash = computeHash e → v ≠ e.hash →
        verifyRows p (l₁ ++ { e with hash := v } :: l₂) = ⟨false, some e.id⟩)
    ∧ (AuditLogState.verify { abcState with db := some abcStatusTampered }
        = ⟨false, some "C"⟩)
    ∧ (AuditLogState.verify { abcState with db := some abcRespTampered } = ⟨true, none⟩) := by
  refine ⟨by decide, fun p l₁ e l₂ => verifyRows_append_break l₁ p e l₂, ?_, ?_,
          by decide, by decide⟩
  · intro p l₁ e l₂ v hok hlink hv
    rw [hlink] at hv
    exact verifyRows_append_break l₁ p { e with prevHash := v } l₂ hok (Or.inl hv)
  · intro p l₁ e l₂ v hok hhash hv
    rw [hhash] at hv
    exact verifyRows_append_break l₁ p { e with hash := v } l₂ hok (Or.inr hv)

/-- Witness for C2's universal break statements at concrete rows: an entry
whose `prevHash` does not link is reported as the break point. -/
theorem C2_tamper_detection_witness :
    (verifyRows "genesis" [] = ⟨true, none⟩)
    ∧ (dummyEntry.prevHash ≠ some (chainTip "genesis" []))
    ∧ (verifyRows "genesis" ([] ++ dummyEntry :: []) = ⟨false, some ""⟩) :=
  ⟨rfl, by decide,
   C2_tamper_detection.2.1 "genesis" [] dummyEntry [] rfl (Or.inl (by decide))⟩

/-- C10: when the audit configuration disables the hash chain or no
database is open, `verify()` returns `{valid := true}` unconditionally,
whatever rows the table holds. -/
theorem C10_verify_unconditional (st : AuditLogState)
    (h : st.hashChain = false ∨ st.db = none) :
    st.verify = ⟨true, none⟩ := by
  obtain ⟨db, lh, hc⟩ := st
  dsimp only at h
  rcases h with h | h
  · subst h
    cases db <;> rfl
  · subst h
    rfl

/-- Witness for C10: a chain-disabled log over a nonempty garbage table
still verifies as valid. -/
theorem C10_verify_unconditional_witness :
    AuditLogState.verify ⟨some [dummyEntry], "x", false⟩ = ⟨true, none⟩ :=
  C10_verify_unconditional ⟨some [dummyEntry], "x", false⟩ (Or.inl rfl)

/-! ### Policy engine claims -/

/-- With an empty caller role set, a policy matches only through a literal
`"*"` role; when no policy carries one, no rule applies. -/
theorem collectApplicable_empty (ctx : ConsumerContext) (serverId toolName : String)
    (policies : List PolicyConfig) (hroles : ctx.roles = [])
    (hstar : ∀ p ∈ policies, "*" ∉ p.roles) :
    collectApplicable ctx serverId toolName policies = [] := by
  induction policies with
  | nil => rfl
  | cons p ps ih =>
    have hp : p.roles.any (fun r => r == "*" || ctx.roles.contains r) = false := by
      rw [List.any_eq_false]
      intro r hr
      have h1 : r ≠ "*" := fun he => hstar p (List.mem_cons_self p ps) (he ▸ hr)
      simp [hroles, h1]
    have hrest := ih (fun q hq => hstar q (List.mem_cons_of_mem p hq))
    simp only [collectApplicable, List.flatMap_cons, hp] at hrest ⊢
    simpa using hrest

/-- C3 counterexample: a policy carrying the wildcard role `"*"` (as in the
loader's default configuration) applies to a caller with an empty role
list, so its allow rule yields an allowed decision — the claim's
"denied for every policy configuration" fails. -/
theorem C3_counterexample :
    (PolicyEngine.evaluate noRegex allowAllPolicies noRoleCtx "s1" "t" none).allowed
      = true := by
  decide

/-- C3 (amended): for every caller whose role list is empty and every
policy configuration in which no policy carries the wildcard role `"*"`,
`evaluate` returns a denied decision, whatever the server, tool, argument
map and regex behaviour. -/
theorem C3_default_deny (rx : RegexEngine) (policies : List PolicyConfig)
    (ctx : ConsumerContext) (serverId toolName : String) (args : Option ArgMap)
    (hroles : ctx.roles = []) (hstar : ∀ p ∈ policies, "*" ∉ p.roles) :
    (PolicyEngine.evaluate rx policies ctx serverId toolName args).allowed = false := by
  simp [PolicyEngine.evaluate,
        collectApplicable_empty ctx serverId toolName policies hroles hstar]

/-- Witness for C3 at the repository's own test policies (none of which
carries a `"*"` role) and its empty-role caller. -/
theorem C3_default_deny_witness :
    noRoleCtx.roles = [] ∧ (∀ p ∈ testPolicies, "*" ∉ p.roles)
    ∧ (PolicyEngine.evaluate noRegex testPolicies noRoleCtx "mcp-fred" "get_series"
        none).allowed = false :=
  ⟨rfl, by decide,
   C3_default_deny noRegex testPolicies noRoleCtx "mcp-fred" "get_series" none rfl
     (by decide)⟩

/-- C5 counterexample: with the reader policy `[get_* allow, * deny]` plus
the second reader policy `[{server: pay, tool: *, deny}]`, evaluating
`(reader, pay, get_x)` returns an allowed decision, not the denial the
claim states. -/
theorem C5_counterexample :
    (PolicyEngine.evaluate noRegex c5Policies c5Reader "pay" "get_x" none).allowed
      = true := by
  decide

/-- C5 (amended): the reader-allow rule `get_*` has specificity 1 — not 0 —
the same as the server-restricted deny rule's specificity 1, so under the
specificity-descending input-order-stable sort the reader policy's allow
rule is walked first and `(reader, pay, get_x)` is allowed by it. -/
theorem C5_server_restriction_tie :
    PolicyEngine.evaluate noRegex c5Policies c5Reader "pay" "get_x" none
      = ⟨true, none, some ⟨none, some "get_*", .allow, none⟩⟩
    ∧ ruleSpecificity ⟨none, some "get_*", .allow, none⟩ = 1
    ∧ ruleSpecificity ⟨some "pay", some "*", .deny, none⟩ = 1 :=
  ⟨by decide, by decide, by decide⟩

/-- C6 counterexample: when the argument map is absent, a rule carrying
conditions is not skipped — `if (rule.conditions && args)` bypasses the
condition check — so the conditional allow rule decides and the call is
allowed, although the claim requires the rule to be skipped (its
condition's parameter being absent) for every argument map including an
absent one. -/
theorem C6_counterexample :
    (PolicyEngine.evaluate noRegex c6Policies c6Ctx "s" "t" none).allowed = true := by
  decide

/-- C6 (amended): when an argument map is provided (even an empty one), a
rule carrying conditions is skipped unless every condition matches, where a
condition whose parameter is absent fails, the `in` operator requires an
array value, and an invalid regex fails closed; but when the argument map
is absent the conditions are ignored and the rule decides unconditionally. -/
theorem C6_condition_semantics :
    (∀ (rx : RegexEngine) (ar : ApplicableRule) (rest : List ApplicableRule)
        (cs : List PolicyCondition) (m : ArgMap),
        ar.rule.conditions = some cs →
        cs.all (fun c => evaluateCondition rx c m) = false →
        walkRules rx (some m) (ar :: rest) = walkRules rx (some m) rest)
    ∧ (∀ (rx : RegexEngine) (ar : ApplicableRule) (rest : List ApplicableRule),
        walkRules rx none (ar :: rest) = ruleDecision ar.policyName ar.rule)
    ∧ (∀ (rx : RegexEngine) (c : PolicyCondition) (m : ArgMap),
        lookupArg m c.param = none → evaluateCondition rx c m = false)
    ∧ (∀ (rx : RegexEngine) (p s : String) (m : ArgMap),
        evaluateCondition rx ⟨p, .inOp, .str s⟩ m = false)
    ∧ (∀ (rx : RegexEngine) (p : String) (v : CondValue) (m : ArgMap),
        rx (coerceValue v) = none → evaluateCondition rx ⟨p, .regex, v⟩ m = false) := by
  refine ⟨?_, ?_, ?_, ?_, ?_⟩
  · intro rx ar rest cs m h1 h2
    simp [walkRules, h1, h2]
  · intro rx ar rest
    cases h : ar.rule.conditions <;> simp [walkRules, h]
  · intro rx c m h
    simp [evaluateCondition, h]
  · intro rx p s m
    cases h : lookupArg m p <;> simp [evaluateCondition, h]
  · intro rx p v m hrx
    cases h : lookupArg m p <;> simp [evaluateCondition, h, hrx]

/-- Witness for C6 at concrete rules, conditions and argument maps. -/
theorem C6_condition_semantics_witness :
    (walkRules noRegex (some [])
        [⟨⟨none, none, RuleAction.allow, some [⟨"x", CondOp.eq, CondValue.str "1"⟩]⟩, "P"⟩]
      = walkRules noRegex (some []) [])
    ∧ (walkRules noRegex none
        [⟨⟨none, none, RuleAction.allow, some [⟨"x", CondOp.eq, CondValue.str "1"⟩]⟩, "P"⟩]
      = ruleDecision "P" ⟨none, none, RuleAction.allow, some [⟨"x", CondOp.eq, CondValue.str "1"⟩]⟩)
    ∧ (evaluateCondition noRegex ⟨"x", CondOp.eq, CondValue.str "1"⟩ [] = false)
    ∧ (evaluateCondition noRegex ⟨"x", CondOp.inOp, CondValue.str "1"⟩ [("x", "1")] = false)
    ∧ (evaluateCondition noRegex ⟨"x", CondOp.regex, CondValue.str "("⟩ [("x", "1")] = false) :=
  ⟨C6_condition_semantics.1 noRegex _ [] _ [] rfl (by decide),
   C6_condition_semantics.2.1 noRegex _ [],
   C6_condition_semantics.2.2.1 noRegex _ [] rfl,
   C6_condition_semantics.2.2.2.1 noRegex "x" "1" [("x", "1")],
   C6_condition_semantics.2.2.2.2 noRegex "x" _ [("x", "1")] rfl⟩

/-! ### Orchestrator audit coverage -/

/-- C1 (code bug): each of the five enumerated terminal paths of
`Gateway.callTool` — tool not found, policy denied, rate-limited, backend
success, backend failure — writes exactly one audit entry carrying the
matching status; but the terminal path taken when the backend's proxy is
not running (yet the registry still resolves the tool) returns an error
having written zero audit entries, violating "no terminal path writes
zero". -/
theorem C1_audit_coverage :
    ((Gateway.callTool gwBase noRegex envOk ctxPlain "missing" []).2.2.map
        (fun e => e.status) = ["error"])
    ∧ ((Gateway.callTool gwDeny noRegex envOk ctxPlain "t" []).2.2.map
        (fun e => e.status) = ["denied"])
    ∧ ((Gateway.callTool gwRateCapped noRegex envOk ctxPlain "t" []).2.2.map
        (fun e => e.status) = ["rate-limited"])
    ∧ ((Gateway.callTool gwBase noRegex envOk ctxPlain "t" []).2.2.map
        (fun e => e.status) = ["success"])
    ∧ ((Gateway.callTool gwBase noRegex envErr ctxPlain "t" []).2.2.map
        (fun e => e.status) = ["error"])
    ∧ ((Gateway.callTool gwNoProxy noRegex envOk ctxPlain "t" []).2.2 = [])
    ∧ ((Gateway.callTool gwNoProxy noRegex envOk ctxPlain "t" []).2.1
        = ⟨none, some "Server \"s1\" is not running", false, false⟩) :=
  ⟨by decide, by decide, by decide, by decide, by decide, by decide, by decide⟩

/-! ### Rate limiter -/

theorem assocGet_assocSet_ne {α : Type} (l : List (String × α)) (k k' : String) (v : α)
    (h : k ≠ k') :
    assocGet (assocSet l k v) k' = assocGet l k' := by
  induction l with
  | nil => simp [assocSet, assocGet, h]
  | cons kv rest ih =>
    by_cases hk : kv.1 = k
    · simp [assocSet, hk, assocGet, h]
    · by_cases hk' : kv.1 = k'
      · simp [assocSet, hk, assocGet, hk', Ne.symm h]
      · simp [assocSet, hk, assocGet, hk', ih]

/-- C7: with default limit 5 and burst multiplier 2 (cap 10), ten
consecutive `check("k")` calls within one window are all allowed (remaining
9 down to 0), an interleaved `check("k2")` is allowed, the eleventh
`check("k")` is rejected with remaining 0; and in general a check on one
key never changes another key's window. -/
theorem C7_rate_cap_isolation :
    (((runChecks ⟨5, (2, 1), []⟩ c7Calls).2.map (fun r => (r.allowed, r.remaining)))
        = [(true, 9), (true, 8), (true, 7), (true, 6), (true, 5), (true, 4), (true, 3),
           (true, 2), (true, 1), (true, 0), (true, 9), (false, 0)])
    ∧ (∀ (st : RateLimiterState) (now : Nat) (k k' : String) (ov : Option Nat),
        k ≠ k' →
        assocGet (RateLimiter.check st now k ov).1.windows k' = assocGet st.windows k') := by
  constructor
  · decide
  · intro st now k k' ov h
    simp only [RateLimiter.check]
    split <;> exact assocGet_assocSet_ne _ _ _ _ h

/-- Witness for C7's isolation at concrete keys. -/
theorem C7_rate_cap_isolation_witness :
    "k" ≠ "k2"
    ∧ assocGet (RateLimiter.check ⟨5, (2, 1), []⟩ 0 "k" none).1.windows "k2"
        = assocGet (RateLimiterState.mk 5 (2, 1) []).windows "k2" :=
  ⟨by decide, C7_rate_cap_isolation.2 ⟨5, (2, 1), []⟩ 0 "k" "k2" none (by decide)⟩

/-! ### Proxy completion -/

theorem proxyRun_no_completion (evs : List ProxyEvent) :
    ∀ (s : List Nat) (i : Nat), i ∉ s → completionsFor i (proxyRun s evs).2 = [] := by
  induction evs with
  | nil =>
    intro s i _
    rfl
  | cons e es ih =>
    intro s i h
    cases e with
    | response j isErr =>
      by_cases hj : j ∈ s
      · have hne : j ≠ i := fun he => h (he ▸ hj)
        have h' : i ∉ s.erase j := fun hm => h (List.mem_of_mem_erase hm)
        have hall := List.filter_eq_nil_iff.mp (ih _ _ h')
        cases isErr <;>
          (simp [proxyRun, proxyStep, hj, completionsFor, Completion.cid, hne]
           intro a ha hc
           exact hall a ha (by simp [Completion.cid, hc]))
      · simpa [proxyRun, proxyStep, hj, completionsFor] using ih _ _ h
    | timeout j =>
      by_cases hj : j ∈ s
      · have hne : j ≠ i := fun he => h (he ▸ hj)
        have h' : i ∉ s.erase j := fun hm => h (List.mem_of_mem_erase hm)
        have hall := List.filter_eq_nil_iff.mp (ih _ _ h')
        simp [proxyRun, proxyStep, hj, completionsFor, Completion.cid, hne]
        intro a ha hc
        exact hall a ha (by simp [Completion.cid, hc])
      · simpa [proxyRun, proxyStep, hj, completionsFor] using ih _ _ h

theorem proxyRun_once (evs : List ProxyEvent) :
    ∀ (s : List Nat) (i : Nat), s.count i ≤ 1 →
      (completionsFor i (proxyRun s evs).2).length ≤ 1 := by
  induction evs with
  | nil =>
    intro s i _
    simp [proxyRun, completionsFor]
  | cons e es ih =>
    intro s i hcnt
    cases e with
    | response j isErr =>
      by_cases hj : j ∈ s
      · by_cases hji : j = i
        · subst hji
          have h1 : s.count j ≠ 0 := fun h0 => (List.count_eq_zero.mp h0) hj
          have h2 : (s.erase j).count j = 0 := by
            rw [List.count_erase_self]
            omega
          have h3 : j ∉ s.erase j := List.count_eq_zero.mp h2
          have hall := List.filter_eq_nil_iff.mp (proxyRun_no_completion es _ _ h3)
          cases isErr <;>
            (simp [proxyRun, proxyStep, hj, completionsFor, Completion.cid]
             intro a ha hc
             exact hall a ha (by simp [Completion.cid, hc]))
        · have hc' : (s.erase j).count i ≤ 1 :=
            le_trans ((List.erase_sublist j s).count_le i) hcnt
          cases isErr <;>
            simpa [proxyRun, proxyStep, hj, completionsFor, Completion.cid, hji]
              using ih _ _ hc'
      · simpa [proxyRun, proxyStep, hj] using ih _ _ hcnt
    | timeout j =>
      by_cases hj : j ∈ s
      · by_cases hji : j = i
        · subst hji
          have h1 : s.count j ≠ 0 := fun h0 => (List.count_eq_zero.mp h0) hj
          have h2 : (s.erase j).count j = 0 := by
            rw [List.count_erase_self]
            omega
          have h3 : j ∉ s.erase j := List.count_eq_zero.mp h2
          have hall := List.filter_eq_nil_iff.mp (proxyRun_no_completion es _ _ h3)
          simp [proxyRun, proxyStep, hj, completionsFor, Completion.cid]
          intro a ha hc
          exact hall a ha (by simp [Completion.cid, hc])
        · have hc' : (s.erase j).count i ≤ 1 :=
            le_trans ((List.erase_sublist j s).count_le i) hcnt
          simpa [proxyRun, proxyStep, hj, completionsFor, Completion.cid, hji]
            using ih _ _ hc'
      · simpa [proxyRun, proxyStep, hj] using ih _ _ hcnt

/-- C8: when a pending request's deadline expires, its correlation entry is
removed and the call fails with a timeout completion; an inbound response
whose id is no longer pending is ignored; and over any event sequence a
request id pending at most once completes at most once — a late response
after a timeout never resolves or rejects the same request a second
time. -/
theorem C8_idempotent_completion :
    (∀ (s : List Nat) (i : Nat), i ∈ s →
        proxyStep s (ProxyEvent.timeout i) = (s.erase i, some (Completion.rejectedTimeout i)))
    ∧ (∀ (s : List Nat) (i : Nat) (isErr : Bool), i ∉ s →
        proxyStep s (ProxyEvent.response i isErr) = (s, none))
    ∧ (∀ (evs : List ProxyEvent) (s : List Nat) (i : Nat), s.count i ≤ 1 →
        (completionsFor i (proxyRun s evs).2).length ≤ 1) := by
  refine ⟨?_, ?_, fun evs => proxyRun_once evs⟩
  · intro s i h
    simp [proxyStep, h]
  · intro s i isErr h
    simp [proxyStep, h]

/-- Witness for C8: one pending request that times out and then receives a
late response completes exactly once. -/
theorem C8_idempotent_completion_witness :
    (1 ∈ ([1] : List Nat))
    ∧ proxyStep [1] (ProxyEvent.timeout 1) = ([], some (Completion.rejectedTimeout 1))
    ∧ (completionsFor 1
        (proxyRun [1] [ProxyEvent.timeout 1, ProxyEvent.response 1 false]).2).length ≤ 1 :=
  ⟨by decide,
   C8_idempotent_completion.1 [1] 1 (by decide),
   C8_idempotent_completion.2.2 [ProxyEvent.timeout 1, ProxyEvent.response 1 false] [1] 1
     (by decide)⟩

/-! ### Meter -/

theorem summary_fold (entries : List MeterEntry) :
    ∀ (acc : SummaryAcc),
      ((entries.foldl summaryStep acc).totalCalls = acc.totalCalls + histCalls entries)
      ∧ ((entries.foldl summaryStep acc).totalErrors = acc.totalErrors + histErrors entries)
      ∧ ((entries.foldl summaryStep acc).totalLatency = acc.totalLatency + histLat entries) := by
  induction entries with
  | nil =>
    intro acc
    simp [histCalls, histErrors, histLat]
  | cons e es ih =>
    intro acc
    rcases ih (summaryStep acc e) with ⟨i1, i2, i3⟩
    refine ⟨?_, ?_, ?_⟩
    · simp only [List.foldl_cons]
      rw [i1]
      simp [summaryStep, histCalls]
      omega
    · simp only [List.foldl_cons]
      rw [i2]
      simp [summaryStep, histErrors]
      omega
    · simp only [List.foldl_cons]
      rw [i3]
      simp [summaryStep, histLat]
      omega

theorem meterEntryOfBucket_calls (kb : String × MeterBucket) :
    (meterEntryOfBucket kb).calls = kb.2.calls := rfl

theorem meterEntryOfBucket_errors (kb : String × MeterBucket) :
    (meterEntryOfBucket kb).errors = kb.2.errors := rfl

theorem meterEntryOfBucket_lat (kb : String × MeterBucket) :
    (meterEntryOfBucket kb).totalLatencyMs = kb.2.totalLatencyMs := rfl

theorem flush_hist (m : MeterState) :
    histCalls m.flush.history = mCalls m
    ∧ histErrors m.flush.history = mErrors m
    ∧ histLat m.flush.history = mLat m
    ∧ m.flush.buckets = [] := by
  refine ⟨?_, ?_, ?_, rfl⟩ <;>
    (simp [MeterState.flush, histCalls, histErrors, histLat, mCalls, mErrors, mLat,
           bucketsCalls, bucketsErrors, bucketsLat, List.map_map]
     exact congrArg List.sum (List.map_congr_left (fun kb _ => rfl)))

theorem bucketsCalls_cons (kv : String × MeterBucket) (l : List (String × MeterBucket)) :
    bucketsCalls (kv :: l) = kv.2.calls + bucketsCalls l := by
  simp [bucketsCalls]

theorem bucketsErrors_cons (kv : String × MeterBucket) (l : List (String × MeterBucket)) :
    bucketsErrors (kv :: l) = kv.2.errors + bucketsErrors l := by
  simp [bucketsErrors]

theorem bucketsLat_cons (kv : String × MeterBucket) (l : List (String × MeterBucket)) :
    bucketsLat (kv :: l) = kv.2.totalLatencyMs + bucketsLat l := by
  simp [bucketsLat]

theorem buckets_bump (bs : List (String × MeterBucket)) (k : String) (lat : Nat) (err : Bool) :
    (bucketsCalls (assocSet bs k (bumpBucket (assocGet bs k) lat err)) = bucketsCalls bs + 1)
    ∧ (bucketsErrors (assocSet bs k (bumpBucket (assocGet bs k) lat err))
        = bucketsErrors bs + (if err then 1 else 0))
    ∧ (bucketsLat (assocSet bs k (bumpBucket (assocGet bs k) lat err))
        = bucketsLat bs + lat) := by
  induction bs with
  | nil =>
    refine ⟨?_, ?_, ?_⟩ <;> cases err <;> rfl
  | cons kv rest ih =>
    rcases ih with ⟨i1, i2, i3⟩
    by_cases hk : kv.1 = k
    · refine ⟨?_, ?_, ?_⟩ <;> cases err <;>
        (simp [assocGet, assocSet, hk, bumpBucket,
               bucketsCalls_cons, bucketsErrors_cons, bucketsLat_cons]
         try omega)
    · refine ⟨?_, ?_, ?_⟩ <;>
        (simp [assocGet, assocSet, hk,
               bucketsCalls_cons, bucketsErrors_cons, bucketsLat_cons, i1, i2, i3]
         try omega)

theorem record_totals (m : MeterState) (hm : m.enabled = true) (period c s t : String)
    (lat : Nat) (err : Bool) :
    (mCalls (m.record period c s t lat err) = mCalls m + 1)
    ∧ (mErrors (m.record period c s t lat err) = mErrors m + (if err then 1 else 0))
    ∧ (mLat (m.record period c s t lat err) = mLat m + lat)
    ∧ ((m.record period c s t lat err).enabled = true) := by
  unfold MeterState.record
  rw [hm]
  have hcond : ¬ (true = false) := by simp
  rw [if_neg hcond]
  split
  · rcases flush_hist m with ⟨f1, f2, f3, f4⟩
    rcases buckets_bump [] (c ++ "|" ++ s ++ "|" ++ t ++ "|" ++ period) lat err with
      ⟨b1, b2, b3⟩
    simp only [mCalls, mErrors, mLat] at f1 f2 f3
    have hb0c : bucketsCalls ([] : List (String × MeterBucket)) = 0 := rfl
    have hb0e : bucketsErrors ([] : List (String × MeterBucket)) = 0 := rfl
    have hb0l : bucketsLat ([] : List (String × MeterBucket)) = 0 := rfl
    rw [hb0c] at b1
    rw [hb0e] at b2
    rw [hb0l] at b3
    simp only [Nat.zero_add] at b1 b2 b3
    refine ⟨?_, ?_, ?_, ?_⟩
    · simp only [mCalls]
      try dsimp only
      rw [f4, b1, f1]
    · simp only [mErrors]
      try dsimp only
      rw [f4, b2, f2]
    · simp only [mLat]
      try dsimp only
      rw [f4, b3, f3]
    · simpa [MeterState.flush] using hm
  · rcases buckets_bump m.buckets (c ++ "|" ++ s ++ "|" ++ t ++ "|" ++ period) lat err with
      ⟨b1, b2, b3⟩
    refine ⟨?_, ?_, ?_, ?_⟩
    · simp only [mCalls]
      try dsimp only
      rw [b1, ← Nat.add_assoc]
    · simp only [mErrors]
      try dsimp only
      rw [b2, ← Nat.add_assoc]
    · simp only [mLat]
      try dsimp only
      rw [b3, ← Nat.add_assoc]
    · simpa using hm

theorem runRecords_totals (recs : List RecordCall) :
    ∀ (m : MeterState), m.enabled = true →
      (mCalls (runRecords m recs) = mCalls m + recs.length)
      ∧ (mErrors (runRecords m recs) = mErrors m + (recs.filter (fun c => c.isError)).length)
      ∧ (mLat (runRecords m recs) = mLat m + (recs.map (fun c => c.latencyMs)).sum) := by
  induction recs with
  | nil =>
    intro m hm
    simp [runRecords]
  | cons c cs ih =>
    intro m hm
    rcases record_totals m hm c.period c.consumerId c.serverId c.tool c.latencyMs c.isError with
      ⟨r1, r2, r3, r4⟩
    rcases ih (m.record c.period c.consumerId c.serverId c.tool c.latencyMs c.isError) r4 with
      ⟨i1, i2, i3⟩
    have hrw : runRecords m (c :: cs)
        = runRecords (m.record c.period c.consumerId c.serverId c.tool c.latencyMs c.isError)
            cs := rfl
    refine ⟨?_, ?_, ?_⟩ <;> rw [hrw]
    · rw [i1, r1]
      simp
      omega
    · rw [i2, r2]
      cases hc : c.isError <;> simp [List.filter_cons, hc] <;> omega
    · rw [i3, r3]
      simp
      omega

theorem getSummary_totals (m : MeterState) :
    ((m.getSummary none).2.totalCalls = mCalls m)
    ∧ ((m.getSummary none).2.totalErrors = mErrors m)
    ∧ ((m.getSummary none).2.avgLatencyMs
        = if mCalls m = 0 then 0 else jsRound (mLat m) (mCalls m)) := by
  rcases flush_hist m with ⟨f1, f2, f3, _⟩
  rcases summary_fold m.flush.history ⟨0, 0, 0, [], []⟩ with ⟨s1, s2, s3⟩
  refine ⟨?_, ?_, ?_⟩ <;>
    simp only [MeterState.getSummary, MeterState.getUsage, jsStr]
  · rw [s1]
    simpa using f1
  · rw [s2]
    simpa using f2
  · rw [s1, s3]
    simp only [Nat.zero_add]
    rw [f1, f3]
    by_cases h0 : mCalls m = 0 <;> simp [h0, Nat.pos_iff_ne_zero]

/-- C9 counterexample: after recording two calls with latencies 2 and 3
(summed latency 5 over 2 calls), `getSummary` reports
`Math.round(5 / 2) = 3`, not the truncating integer division `5 / 2 = 2`
the claim requires. -/
theorem C9_counterexample :
    ¬ ((c9Meter.getSummary none).2.avgLatencyMs = (2 + 3) / 2) := by
  decide

/-- C9 (amended): for every sequence of recorded calls on a fresh enabled
meter, `getSummary` reports the exact total call count, the exact error
count, and an average latency equal to `Math.round` (round half up) of the
summed latency over the call count — not the truncating division — and 0
when the call count is zero. -/
theorem C9_summary_totals (recs : List RecordCall) (p : String) :
    (((runRecords (freshMeter p) recs).getSummary none).2.totalCalls = recs.length)
    ∧ (((runRecords (freshMeter p) recs).getSummary none).2.totalErrors
        = (recs.filter (fun c => c.isError)).length)
    ∧ (((runRecords (freshMeter p) recs).getSummary none).2.avgLatencyMs
        = if recs.length = 0 then 0
          else jsRound ((recs.map (fun c => c.latencyMs)).sum) recs.length) := by
  rcases runRecords_totals recs (freshMeter p) rfl with ⟨r1, r2, r3⟩
  rcases getSummary_totals (runRecords (freshMeter p) recs) with ⟨g1, g2, g3⟩
  have e1 : mCalls (freshMeter p) = 0 := rfl
  have e2 : mErrors (freshMeter p) = 0 := rfl
  have e3 : mLat (freshMeter p) = 0 := rfl
  rw [e1] at r1
  rw [e2] at r2
  rw [e3] at r3
  simp only [Nat.zero_add] at r1 r2 r3
  exact ⟨by rw [g1, r1], by rw [g2, r2], by rw [g3, r1, r3]⟩

end MCPGW
